import Mathlib

/-!
Verification of the adaptive work scheduler in `src/file.user.js`
(FASTSIM-PRO v4).  The development shallowly embeds the scheduler:

* times and millisecond measurements are rationals (`ℚ`); readings of the
  external clocks (`performance.now()`, `Date.now()`) are passed in as
  parameters;
* the mutable singleton `state` object becomes the structure `Sys`, passed
  and returned explicitly;
* video elements are identified by natural numbers at the registry level
  (`queue`, `doneFlags`); the per-item processor works on a `Video` record
  carrying the fields the code reads (`readyState`, `duration`,
  `currentTime`, the `__fsim_done` flag) plus a fault schedule for the
  `currentTime` setter, which in the browser may throw;
* the asynchronous `processOneHybrid` is a fuel-indexed function returning
  `Option`: `none` models a run of the incremental stepping loop that has
  not exited within the given fuel (the loop as written has no bound of its
  own).

`hwConcurrency`-dependent configuration (`CONF.concurrencyMax`) is kept as
a parameter `cmax`; the remaining `CONF` values are the literals of the
source.
-/

namespace FastSim

/-- One latency sample, `{ t: Date.now(), ms }` in the source
(`state.lastWorkSamples`). -/
structure Sample where
  t : ℚ
  ms : ℚ
deriving DecidableEq

/-- `CONF.concurrencyMin` (line 12). -/
def confConcurrencyMin : ℤ := 1

/-- `CONF.concurrencyMax = Math.max(2, navigator.hardwareConcurrency ?
Math.min(8, navigator.hardwareConcurrency) : 4)` (line 13).  The hardware
report is the parameter; `none` models an absent
`navigator.hardwareConcurrency`. -/
def confConcurrencyMax (hw : Option ℤ) : ℤ :=
  max 2 (match hw with | some n => min 8 n | none => 4)

/-- `CONF.concurrencyInit` (line 14). -/
def confConcurrencyInit : ℤ := 3

/-- `CONF.batchDelayMin` (line 15). -/
def confBatchDelayMin : ℚ := 20

/-- `CONF.batchDelayMax` (line 16). -/
def confBatchDelayMax : ℚ := 600

/-- `CONF.batchDelayInit` (line 17). -/
def confBatchDelayInit : ℚ := 200

/-- `CONF.preferInstantReadyState` (line 18). -/
def confPreferInstantReadyState : ℚ := 2

/-- `CONF.skipStepBase` (line 19), `1e12`. -/
def confSkipStepBase : ℚ := 10 ^ 12

/-- `CONF.skipStepMax` (line 20), `1e18`. -/
def confSkipStepMax : ℚ := 10 ^ 18

/-- `CONF.adaptWindowMs` (line 22). -/
def confAdaptWindowMs : ℚ := 2000

/-- `CONF.adaptTargetWorkMs` (line 23). -/
def confAdaptTargetWorkMs : ℚ := 12

/-- The mutable singleton `state` (lines 31-47).  `queue` and
`doneFlags` hold video identities: `doneFlags` records which videos carry
the `__fsim_done` mark.  `inflight` tracks the videos whose
`processOneHybrid` call has been launched but whose `.finally` has not yet
run (in the source this is only counted, in `processingCount`); `launched`
is the history of every launch handed to `processOneHybrid`, recorded so
that duplicate processing is observable.  `observer`, `healTimer`,
`taskScheduled` and `apiKey` play no part in the verified claims and are
omitted. -/
structure Sys where
  running : Bool
  concurrency : ℤ
  batchDelay : ℚ
  skipStep : ℚ
  queue : List ℕ
  processingCount : ℕ
  doneCount : ℕ
  seenCount : ℕ
  readySuccess : ℕ
  readyFailure : ℕ
  lastWorkSamples : List Sample
  doneFlags : List ℕ
  inflight : List ℕ
  launched : List ℕ

/-- The initial `state` (lines 31-47). -/
def initState : Sys :=
  { running := true
    concurrency := confConcurrencyInit
    batchDelay := confBatchDelayInit
    skipStep := confSkipStepBase
    queue := []
    processingCount := 0
    doneCount := 0
    seenCount := 0
    readySuccess := 0
    readyFailure := 0
    lastWorkSamples := []
    doneFlags := []
    inflight := []
    launched := [] }

/-- The sliding-window purge `samples.filter(s => s.t >= cutoff)` with
`cutoff = now - CONF.adaptWindowMs` (lines 166-167 and 240-241). -/
def purgeSamples (now : ℚ) (samples : List Sample) : List Sample :=
  samples.filter (fun s => decide (now - confAdaptWindowMs ≤ s.t))

/-- The average used by the balancer (lines 265-266):
`arr = lastWorkSamples.map(s => s.ms).filter(Boolean)` and
`avg = arr.length ? arr.reduce((a,b) => a+b, 0)/arr.length : 0`.
`filter(Boolean)` on numbers drops exactly the zero samples (a measured
duration is never `NaN`: it is `Math.max(0, ...)` of a clock difference or
a rounded one). -/
def adaptAvg (samples : List Sample) : ℚ :=
  let arr := (samples.map Sample.ms).filter (fun x => decide (x ≠ 0))
  if arr.length = 0 then 0 else (arr.foldl (· + ·) 0) / arr.length

/-- Modelled from the spec: the average the spec describes in section 4.4,
`avg = mean(remaining sample durations), or 0 if empty` — the mean of the
durations of ALL retained samples.  Kept separate from `adaptAvg` so the
two can be compared (claim C5). -/
def specAvg (samples : List Sample) : ℚ :=
  if samples.length = 0 then 0
  else ((samples.map Sample.ms).foldl (· + ·) 0) / samples.length

/-- The success-rate estimate `(readySuccess + 1)/(readySuccess +
readyFailure + 2)` (lines 180 and 274). -/
def readyRateOf (rs rf : ℕ) : ℚ :=
  ((rs : ℚ) + 1) / ((rs : ℚ) + (rf : ℚ) + 2)

/-- `adaptCoreParameters()` (lines 262-283): recompute `concurrency`,
`skipStep` and `batchDelay` from the current sample window.
`Math.round(state.concurrency)` is the identity here because `concurrency`
is only ever an integer (it is modelled as `ℤ`); `state.batchDelay ||
CONF.batchDelayInit` is the JavaScript falsy check, i.e. the fallback is
used exactly when the stored value is `0`. -/
def adaptCoreParameters (cmax : ℤ) (s : Sys) : Sys :=
  let avg := adaptAvg s.lastWorkSamples
  let c1 : ℤ :=
    if avg < confAdaptTargetWorkMs then min cmax (s.concurrency + 1)
    else if confAdaptTargetWorkMs * (9 / 5) < avg then
      max confConcurrencyMin (s.concurrency - 1)
    else s.concurrency
  let readyRate := readyRateOf s.readySuccess s.readyFailure
  let ss : ℚ :=
    if 3 / 5 < readyRate then max (confSkipStepBase / 10) (confSkipStepBase / 100)
    else confSkipStepBase
  let bd0 : ℚ := if s.batchDelay = 0 then confBatchDelayInit else s.batchDelay
  let bd : ℚ :=
    if confAdaptTargetWorkMs * 2 < avg then min confBatchDelayMax (bd0 * (3 / 2))
    else max confBatchDelayMin (bd0 * (9 / 10))
  { s with concurrency := max confConcurrencyMin (min cmax c1)
           skipStep := ss
           batchDelay := bd }

/-- `enqueueNewVideos()` (lines 246-259), with the set of videos the page
traversal finds passed in as `found`.  Per video: skip when
`v.__fsim_done`, skip when already in the queue (`indexOf(v) === -1`
check), otherwise push; then
`seenCount = Math.max(seenCount, queue.length + processingCount +
doneCount)`.  (The `scheduleTaskDrain` trigger carries no state the claims
observe.) -/
def enqueueNewVideos (found : List ℕ) (s : Sys) : Sys :=
  let q := found.foldl
    (fun q v => if v ∈ s.doneFlags then q else if v ∈ q then q else q ++ [v])
    s.queue
  { s with queue := q
           seenCount := max s.seenCount (q.length + s.processingCount + s.doneCount) }

/-- Result of the launch loop of `drainTaskBatch` (lines 143-156). -/
structure DrainRes where
  queue : List ℕ
  processingCount : ℕ
  launched : List ℕ
deriving DecidableEq

/-- The launch loop of `drainTaskBatch` (lines 143-156):
`while (queue.length > 0 && processingCount < concurrency && processed <
concurrency)` — shift the head, skip it when `__fsim_done`, otherwise
increment `processingCount` and `processed` and launch `processOneHybrid`
on it.  `pr` is `processed`; the launched videos are returned in order. -/
def drainLoop (doneFlags : List ℕ) (conc : ℤ) :
    List ℕ → ℕ → ℕ → DrainRes
  | [], pc, _ => ⟨[], pc, []⟩
  | v :: rest, pc, pr =>
    if (pc : ℤ) < conc ∧ (pr : ℤ) < conc then
      if v ∈ doneFlags then drainLoop doneFlags conc rest pc pr
      else
        let r := drainLoop doneFlags conc rest (pc + 1) (pr + 1)
        ⟨r.queue, r.processingCount, v :: r.launched⟩
    else ⟨v :: rest, pc, []⟩

/-- One activation of `drainTaskBatch()` (lines 138-170): run the launch
loop, then (in the `finally` block) push the measured elapsed time
`Math.max(0, t1 - t0)` as a sample, purge the window and run
`adaptCoreParameters`.  `now` stands for the clock readings and
`elapsedMs` for `t1 - t0`; both are external measurements.  The launched
asynchronous completions of launched videos are separate events (`finishVideo`). -/
def drainTaskBatch (cmax : ℤ) (now elapsedMs : ℚ) (s : Sys) : Sys :=
  let r := drainLoop s.doneFlags s.concurrency s.queue s.processingCount 0
  let s1 := { s with queue := r.queue
                     processingCount := r.processingCount
                     inflight := s.inflight ++ r.launched
                     launched := s.launched ++ r.launched }
  adaptCoreParameters cmax
    { s1 with lastWorkSamples :=
        purgeSamples now (s1.lastWorkSamples ++ [⟨now, max 0 elapsedMs⟩]) }

/-- The registry-level effect of one launched video completing: the tail of
`processOneHybrid` (lines 227-242) — set `__fsim_done`, increment
`doneCount`, push the rounded duration sample `Math.max(0, ...)` and purge
the window — followed by the `.finally` handler (lines 151-155) —
`processingCount = Math.max(0, processingCount - 1)`.  Only a video whose
launch is still outstanding can complete. -/
def finishVideo (v : ℕ) (now tookMs : ℚ) (s : Sys) : Sys :=
  if v ∈ s.inflight then
    { s with doneFlags := if v ∈ s.doneFlags then s.doneFlags else v :: s.doneFlags
             doneCount := s.doneCount + 1
             lastWorkSamples := purgeSamples now (s.lastWorkSamples ++ [⟨now, max 0 tookMs⟩])
             inflight := s.inflight.erase v
             processingCount := s.processingCount - 1 }
  else s

/-- `stopAll()` (lines 311-318): clear the running flag and drop the
pending queue (observer and timer teardown carries no modelled state). -/
def stopAll (s : Sys) : Sys :=
  { s with running := false, queue := [] }

/-- The interval of the periodic discovery poll, installed once at
bootstrap (line 352): `setInterval(..., Math.max(200,
CONF.batchDelayInit))`.  It reads only the configuration constant — never
`state.batchDelay` — so it is the same for every scheduler state `s`. -/
def periodicEnqInterval (_s : Sys) : ℚ :=
  max 200 confBatchDelayInit

/-- A JavaScript value that is either a string or a number: the type of
`status().avgWorkMs`, which the source builds as `(...).toFixed(2)` in one
branch and the literal `0` in the other (line 327). -/
inductive JsVal where
  | str (s : String)
  | num (q : ℚ)
deriving DecidableEq

/-- `Number.prototype.toFixed(2)`: the decimal string with two fraction
digits closest to `q`, ties resolved to the larger value (ECMA-262 picks
the larger candidate `n`). -/
def toFixed2 (q : ℚ) : String :=
  let n : ℤ := ⌊q * 100 + 1 / 2⌋
  let pad : ℕ → String := fun m => if m < 10 then "0" ++ toString m else toString m
  if n < 0 then "-" ++ toString (n.natAbs / 100) ++ "." ++ pad (n.natAbs % 100)
  else toString (n.toNat / 100) ++ "." ++ pad (n.toNat % 100)

/-- The `avgWorkMs` field of `status()` (line 327):
`lastWorkSamples.length ? (lastWorkSamples.reduce((a,b) => a+b.ms, 0) /
lastWorkSamples.length).toFixed(2) : 0` — a string when at least one
sample is stored, the number `0` otherwise. -/
def statusAvg (samples : List Sample) : JsVal :=
  if samples.length = 0 then JsVal.num 0
  else JsVal.str (toFixed2 ((samples.foldl (fun a b => a + b.ms) 0) / samples.length))

/-- The object returned by `status()` (lines 319-329). -/
structure StatusSnap where
  running : Bool
  concurrency : ℤ
  queueLength : ℕ
  processing : ℕ
  done : ℕ
  seen : ℕ
  avgWorkMs : JsVal
deriving DecidableEq

/-- `status()` (lines 319-329): build the snapshot from the current state.
The function only reads `state`; the returned second component is the
state after the call. -/
def status (s : Sys) : StatusSnap × Sys :=
  (⟨s.running, s.concurrency, s.queue.length, s.processingCount, s.doneCount,
    s.seenCount, statusAvg s.lastWorkSamples⟩, s)

/-- A video element as `processOneHybrid` sees it.  `readyState` is `some
r` when the property is a number (the code tests `typeof === "number"`),
`duration` is `some d` when the property is a finite number and `none`
when it is non-finite (`NaN`/`Infinity`); `seekFault i` tells whether the
`i`-th assignment to `currentTime` performed on this video throws (the
setter belongs to the external media element and may throw); `fsimDone` is
the `__fsim_done` expando flag. -/
structure Video where
  readyState : Option ℚ
  duration : Option ℚ
  currentTime : ℚ
  seekFault : ℕ → Bool
  fsimDone : Bool

/-- `Number.MAX_VALUE`, the sentinel position used by the instant jump
when the duration is unknown (line 189). -/
def jsMaxValue : ℚ := 2 ^ 1024 - 2 ^ 971

/-- `ready` (line 178): `typeof readyState === "number" ? readyState >=
CONF.preferInstantReadyState : true`. -/
def hybridReady (v : Video) : Bool :=
  match v.readyState with
  | some r => decide (confPreferInstantReadyState ≤ r)
  | none => true

/-- `preferInstant` (line 181): `ready && (readyRate > 0.4)`. -/
def preferInstant (rs rf : ℕ) (v : Video) : Bool :=
  hybridReady v && decide ((2 : ℚ) / 5 < readyRateOf rs rf)

/-- The step budget of the incremental strategy (line 203):
`Math.min(CONF.skipStepBase || CONF.skipStepBase, state.skipStep ||
CONF.skipStepBase, CONF.skipStepMax)`; `x || CONF.skipStepBase` is the
falsy fallback, taken exactly when `x` is `0`. -/
def stepOf (skipStep : ℚ) : ℚ :=
  min (min confSkipStepBase (if skipStep = 0 then confSkipStepBase else skipStep))
    confSkipStepMax

/-- How one run of the incremental stepping loop (lines 206-224) ended:
the remaining duration dropped under the epsilon and the terminal `ended`
event was dispatched (`finished`); the `state.running` check failed
(`stopped`); a `currentTime` assignment threw and the `catch` broke out
(`errored`). -/
inductive LoopExit where
  | finished
  | stopped
  | errored
deriving DecidableEq

/-- The incremental stepping loop (lines 206-224), one constructor case
per iteration, consuming one unit of fuel per iteration: check
`state.running` (the schedule `run`, indexed by iteration, models the flag
across the `setTimeout(0)` yields); perform the single per-iteration
`currentTime` assignment (it throws when `seekFault i`); with an unknown
or non-positive duration advance by `step`, otherwise finish once the
remainder is at most `0.5` (position `Math.max(0, duration - 0.001)`) and
advance by `Math.min(step, remain)` capped at `duration` otherwise.
`none` means the loop has not exited within `fuel` iterations — the loop
itself has no bound. -/
def incrLoop (step : ℚ) (run : ℕ → Bool) (v : Video) :
    ℕ → ℕ → ℚ → Option (ℚ × LoopExit)
  | 0, _, _ => none
  | fuel + 1, i, pos =>
    if run i = false then some (pos, LoopExit.stopped)
    else if v.seekFault i = true then some (pos, LoopExit.errored)
    else
      match v.duration with
      | none => incrLoop step run v fuel (i + 1) (pos + step)
      | some d =>
        if d ≤ 0 then incrLoop step run v fuel (i + 1) (pos + step)
        else if d - pos ≤ 1 / 2 then some (max 0 (d - 1 / 1000), LoopExit.finished)
        else incrLoop step run v fuel (i + 1) (min d (pos + min step (d - pos)))

/-- Everything observable about one `processOneHybrid(video)` call: the
updated video, the updated counters, the synthetic events dispatched on
the video, whether the instant path was used, whether
`cleanupVideoResources` and `showToast` were invoked (the collaborator
calls at lines 229-230; `showToast` internally no-ops unless
`CONF.toastOnDone`), and the returned boolean. -/
structure ProcResult where
  video : Video
  readySuccess : ℕ
  readyFailure : ℕ
  doneCount : ℕ
  events : List String
  usedInstant : Bool
  cleanupCalled : Bool
  toastCalled : Bool
  returned : Bool

/-- `processOneHybrid(video)` (lines 173-243).  `rs`, `rf`, `skipStep` and
`dc` are the `state` fields the call reads and writes
(`readySuccess`, `readyFailure`, `state.skipStep`, `doneCount`); `run` is
the `state.running` schedule seen by the checks of the loop; `fuel` bounds the
observed iterations of the incremental loop, `none` meaning the loop has
not exited.  Faithful control flow of the source:

* instant path (`ready && preferInstant`, lines 183-199): `muted`/`pause`
  faults are swallowed without effect; if the `currentTime` jump (write 0)
  throws, the `catch` increments `readyFailure` and the function proceeds
  directly to the completion block — the incremental loop is NOT entered;
  otherwise the four terminal events are dispatched and `readySuccess` is
  incremented;
* otherwise (lines 200-224) the incremental loop runs;
* completion (lines 226-231): `__fsim_done = true`, `doneCount++`,
  `cleanupVideoResources(video)`, `showToast(...)`, `return true`. -/
def processOneHybrid (rs rf : ℕ) (skipStep : ℚ) (run : ℕ → Bool) (fuel : ℕ)
    (dc : ℕ) (v : Video) : Option ProcResult :=
  if hybridReady v && preferInstant rs rf v then
    if v.seekFault 0 then
      some { video := { v with fsimDone := true }
             readySuccess := rs, readyFailure := rf + 1, doneCount := dc + 1
             events := [], usedInstant := false
             cleanupCalled := true, toastCalled := true, returned := true }
    else
      let ct : ℚ :=
        match v.duration with
        | some d => if 0 < d then max 0 (d - 1 / 1000) else jsMaxValue
        | none => jsMaxValue
      some { video := { v with currentTime := ct, fsimDone := true }
             readySuccess := rs + 1, readyFailure := rf, doneCount := dc + 1
             events := ["timeupdate", "seeked", "pause", "ended"], usedInstant := true
             cleanupCalled := true, toastCalled := true, returned := true }
  else
    match incrLoop (stepOf skipStep) run v fuel 0 v.currentTime with
    | none => none
    | some (p, ex) =>
      some { video := { v with currentTime := p, fsimDone := true }
             readySuccess := rs, readyFailure := rf, doneCount := dc + 1
             events := if ex = LoopExit.finished then ["ended"] else []
             usedInstant := false
             cleanupCalled := true, toastCalled := true, returned := true }

/-- `processOneHybrid` on this input never exits, whatever fuel it is
observed for, while `state.running` stays `true`. -/
def processDiverges (rs rf : ℕ) (skipStep : ℚ) (dc : ℕ) (v : Video) : Prop :=
  ∀ fuel : ℕ, processOneHybrid rs rf skipStep (fun _ => true) fuel dc v = none

/-- A ready video (`readyState` 3, duration 10 s) whose very first
`currentTime` assignment throws and whose later assignments would
succeed. -/
def videoSeekThrows : Video :=
  { readyState := some 3, duration := some 10, currentTime := 0
    seekFault := fun i => decide (i = 0), fsimDone := false }

/-- A not-ready video (`readyState` 0) whose duration is non-finite
(`none`), with an error-free `currentTime` setter. -/
def videoNoDuration : Video :=
  { readyState := some 0, duration := none, currentTime := 0
    seekFault := fun _ => false, fsimDone := false }

/-- A ready video (`readyState` 3, duration 10 s) with an error-free
`currentTime` setter. -/
def videoInstantOk : Video :=
  { readyState := some 3, duration := some 10, currentTime := 0
    seekFault := fun _ => false, fsimDone := false }

/-- The result `processOneHybrid` produces on `videoInstantOk` from fresh
counters: the instant jump to `duration - 0.001`. -/
def procInstantOk : ProcResult :=
  { video := { videoInstantOk with currentTime := max 0 (10 - 1 / 1000), fsimDone := true }
    readySuccess := 1, readyFailure := 0, doneCount := 1
    events := ["timeupdate", "seeked", "pause", "ended"], usedInstant := true
    cleanupCalled := true, toastCalled := true, returned := true }

/-- A not-ready video (`readyState` 0) with a known duration of 100 s and
an error-free `currentTime` setter. -/
def videoNotReady : Video :=
  { readyState := some 0, duration := some 100, currentTime := 0
    seekFault := fun _ => false, fsimDone := false }

/-- A running-flag schedule under which `stop()` lands between the first
and the second check of the incremental loop: the flag reads `true` at
check 0 and `false` from check 1 on. -/
def runStopAfterOne : ℕ → Bool := fun i => decide (i < 1)

section Theorems

/-- One unfolding of the incremental loop at positive fuel. -/
theorem incrLoop_succ (step : ℚ) (run : ℕ → Bool) (v : Video) (fuel i : ℕ) (pos : ℚ) :
    incrLoop step run v (fuel + 1) i pos =
      (if run i = false then some (pos, LoopExit.stopped)
      else if v.seekFault i = true then some (pos, LoopExit.errored)
      else
        match v.duration with
        | none => incrLoop step run v fuel (i + 1) (pos + step)
        | some d =>
          if d ≤ 0 then incrLoop step run v fuel (i + 1) (pos + step)
          else if d - pos ≤ 1 / 2 then some (max 0 (d - 1 / 1000), LoopExit.finished)
          else incrLoop step run v fuel (i + 1) (min d (pos + min step (d - pos)))) := rfl

/-- The step budget is positive whenever the stored `skipStep` is. -/
theorem stepOf_pos (ss : ℚ) (h : 0 < ss) : 0 < stepOf ss := by
  unfold stepOf
  rw [if_neg (ne_of_gt h)]
  refine lt_min (lt_min ?_ h) ?_ <;> norm_num [confSkipStepBase, confSkipStepMax]

/-- With a known positive duration, fault-free seeking and the running
flag held `true`, the incremental loop reaches the terminal branch once
the remaining duration fits into `step * fuel` more steps: it returns the
final position `max 0 (duration - 0.001)` with the `ended` dispatch. -/
theorem incrLoop_finishes (step d : ℚ) (v : Video) (hstep : 0 < step)
    (hd : v.duration = some d) (hdpos : 0 < d)
    (hfault : ∀ i, v.seekFault i = false) :
    ∀ (fuel : ℕ) (pos : ℚ) (i : ℕ), d - pos ≤ step * fuel →
      incrLoop step (fun _ => true) v (fuel + 1) i pos =
        some (max 0 (d - 1 / 1000), LoopExit.finished) := by
  have hne : ¬ d ≤ 0 := not_le.mpr hdpos
  intro fuel
  induction fuel with
  | zero =>
    intro pos i h
    rw [Nat.cast_zero, mul_zero] at h
    rw [incrLoop_succ]
    simp only [hd]
    rw [if_neg (show ¬ ((fun (_ : ℕ) => true) i = false) by simp),
      if_neg (show ¬ (v.seekFault i = true) by simp [hfault]),
      if_neg hne, if_pos (show d - pos ≤ 1 / 2 by linarith)]
  | succ n ih =>
    intro pos i h
    push_cast at h
    rw [incrLoop_succ]
    simp only [hd]
    rw [if_neg (show ¬ ((fun (_ : ℕ) => true) i = false) by simp),
      if_neg (show ¬ (v.seekFault i = true) by simp [hfault]),
      if_neg hne]
    by_cases hfin : d - pos ≤ 1 / 2
    · rw [if_pos hfin]
    · rw [if_neg hfin]
      apply ih
      by_cases hA : step ≤ d - pos
      · rw [min_eq_left hA]
        by_cases hB : pos + step ≤ d
        · rw [min_eq_right hB]
          rw [mul_add, mul_one] at h
          linarith
        · rw [min_eq_left (le_of_not_le hB)]
          have hn : (0 : ℚ) ≤ step * n := by positivity
          linarith
      · rw [min_eq_right (le_of_not_le hA)]
        have hpd : pos + (d - pos) = d := by ring
        rw [hpd, min_self]
        have hn : (0 : ℚ) ≤ step * n := by positivity
        linarith

/-- With an unknown (non-finite) duration, fault-free seeking and the
running flag held `true`, the incremental loop never exits: the
unknown-duration branch only ever advances the position and recurses. -/
theorem incrLoop_stuck_unknown_duration (step : ℚ) (v : Video)
    (hd : v.duration = none) (hfault : ∀ i, v.seekFault i = false) :
    ∀ (fuel i : ℕ) (pos : ℚ), incrLoop step (fun _ => true) v fuel i pos = none := by
  intro fuel
  induction fuel with
  | zero => intro i pos; rfl
  | succ n ih =>
    intro i pos
    simp only [incrLoop, hfault, hd]
    exact ih (i + 1) (pos + step)

/-- Whatever branch `processOneHybrid` exits through, its completion block
runs: the video is marked `__fsim_done`, `doneCount` is incremented by
one, and the cleanup and notification collaborators are invoked. -/
theorem processOneHybrid_completion (rs rf dc : ℕ) (ss : ℚ) (run : ℕ → Bool)
    (fuel : ℕ) (v : Video) (r : ProcResult)
    (h : processOneHybrid rs rf ss run fuel dc v = some r) :
    r.video.fsimDone = true ∧ r.doneCount = dc + 1 ∧
    r.cleanupCalled = true ∧ r.toastCalled = true := by
  unfold processOneHybrid at h
  split at h
  · split at h
    · injection h with h2
      subst h2
      exact ⟨rfl, rfl, rfl, rfl⟩
    · injection h with h2
      subst h2
      exact ⟨rfl, rfl, rfl, rfl⟩
  · split at h
    · exact absurd h (by simp)
    · injection h with h2
      subst h2
      exact ⟨rfl, rfl, rfl, rfl⟩

/-- C8: `status()` is pure with respect to the scheduler state — the state
after the call is the state before it — and the snapshot fields are the
current `running`, `concurrency`, queue length, `processingCount`,
`doneCount`, `seenCount`, and the derived `avgWorkMs` of the stored
samples. -/
theorem c8_status_pure (s : Sys) :
    (status s).2 = s ∧
    (status s).1.running = s.running ∧
    (status s).1.concurrency = s.concurrency ∧
    (status s).1.queueLength = s.queue.length ∧
    (status s).1.processing = s.processingCount ∧
    (status s).1.done = s.doneCount ∧
    (status s).1.seen = s.seenCount ∧
    (status s).1.avgWorkMs = statusAvg s.lastWorkSamples :=
  ⟨rfl, rfl, rfl, rfl, rfl, rfl, rfl, rfl⟩

/-- C10: `status().avgWorkMs` is the decimal string `toFixed2` of the mean
of the stored sample durations (all of them, `specAvg`) when at least one
sample is stored, and the number `0` when none is — a string in one case
and a number in the other, and those two shapes are never equal. -/
theorem c10_avg_work_ms_shape (samples : List Sample) :
    (samples.length ≠ 0 →
        statusAvg samples = JsVal.str (toFixed2 (specAvg samples))) ∧
    (samples.length = 0 → statusAvg samples = JsVal.num 0) ∧
    (∀ a b, JsVal.str a ≠ JsVal.num b) := by
  refine ⟨?_, ?_, ?_⟩
  · intro h
    unfold statusAvg specAvg
    rw [if_neg h, if_neg h, List.foldl_map]
  · intro h
    unfold statusAvg
    rw [if_pos h]
  · intro a b hab
    exact JsVal.noConfusion hab

/-- Witness for C10 at one stored sample and at no sample. -/
theorem c10_avg_work_ms_shape_witness :
    ([Sample.mk 0 1] : List Sample).length ≠ 0 ∧
    statusAvg [Sample.mk 0 1] = JsVal.str (toFixed2 (specAvg [Sample.mk 0 1])) ∧
    statusAvg [] = JsVal.num 0 :=
  ⟨by simp, (c10_avg_work_ms_shape [Sample.mk 0 1]).1 (by simp),
    (c10_avg_work_ms_shape []).2.1 rfl⟩

/-- C7 counterexample: one controller update from the boot state lowers
`batchDelay` from 200 to 180, yet the discovery poll interval is 200
before and after — the poll interval does not follow `batchDelay`. -/
theorem c7_counterexample :
    initState.batchDelay = 200 ∧
    (adaptCoreParameters 4 initState).batchDelay = 180 ∧
    periodicEnqInterval (adaptCoreParameters 4 initState) = periodicEnqInterval initState ∧
    periodicEnqInterval initState = 200 ∧
    (adaptCoreParameters 4 initState).batchDelay ≠
      periodicEnqInterval (adaptCoreParameters 4 initState) := by
  have hbd : (adaptCoreParameters 4 initState).batchDelay = 180 := by
    norm_num [adaptCoreParameters, adaptAvg, initState, readyRateOf,
      confAdaptTargetWorkMs, confBatchDelayInit, confBatchDelayMin,
      confBatchDelayMax, confConcurrencyInit, max_def]
  have hpi : ∀ s : Sys, periodicEnqInterval s = 200 := fun s => by
    norm_num [periodicEnqInterval, confBatchDelayInit, max_def]
  refine ⟨rfl, hbd, (hpi _).trans (hpi _).symm, hpi _, ?_⟩
  rw [hbd, hpi]
  norm_num

/-- C7 amended: the poll interval of the Discovery Feed is the bootstrap
constant `max(200, batchDelayInit) = 200` for every scheduler state; the
controller-maintained `batchDelay` is not consumed by it. -/
theorem c7_amended_poll_interval_constant (s : Sys) :
    periodicEnqInterval s = max 200 confBatchDelayInit ∧ periodicEnqInterval s = 200 :=
  ⟨rfl, by norm_num [periodicEnqInterval, confBatchDelayInit, max_def]⟩

/-- C5 counterexample: with retained samples of durations 0 and 10 the
balancer average is 10 — the zero-duration sample is dropped by
`filter(Boolean)` — while the mean of all retained durations is 5. -/
theorem c5_counterexample :
    adaptAvg [Sample.mk 0 0, Sample.mk 0 10] = 10 ∧
    specAvg [Sample.mk 0 0, Sample.mk 0 10] = 5 := by
  constructor
  · norm_num [adaptAvg, List.filter]
  · norm_num [specAvg]

/-- C5 amended: the balancer average equals the mean of the durations of
the retained samples whenever none of them is zero (in general it is the
mean of the nonzero durations only, or 0 when no nonzero duration
remains). -/
theorem c5_amended_avg_mean (samples : List Sample)
    (h : ∀ x ∈ samples, x.ms ≠ 0) :
    adaptAvg samples = specAvg samples := by
  unfold adaptAvg specAvg
  have hf : (samples.map Sample.ms).filter (fun x => decide (x ≠ 0)) =
      samples.map Sample.ms := by
    rw [List.filter_eq_self]
    intro a ha
    rcases List.mem_map.mp ha with ⟨x, hx, rfl⟩
    simpa using h x hx
  rw [hf]
  simp only [List.length_map]

/-- Witness for C5 amended at one nonzero sample. -/
theorem c5_amended_avg_mean_witness :
    (∀ x ∈ [Sample.mk 0 3], x.ms ≠ 0) ∧
    adaptAvg [Sample.mk 0 3] = specAvg [Sample.mk 0 3] := by
  have h : ∀ x ∈ [Sample.mk 0 3], x.ms ≠ 0 := by
    intro x hx
    rw [List.mem_singleton] at hx
    subst hx
    norm_num
  exact ⟨h, c5_amended_avg_mean [Sample.mk 0 3] h⟩

/-- C6: for a controller state whose `concurrency` is in range (as every
reachable state has), one invocation of `adaptCoreParameters` leaves
`concurrency` unchanged when the computed average lies strictly above
`targetWorkMs` and at or below `targetWorkMs * 1.8`; an average strictly
below `targetWorkMs` increments it clamped to `cmax`; an average strictly
above `targetWorkMs * 1.8` decrements it clamped to `concurrencyMin`. -/
theorem c6_controller_hysteresis (cmax : ℤ) (s : Sys)
    (h1 : confConcurrencyMin ≤ s.concurrency) (h2 : s.concurrency ≤ cmax) :
    (confAdaptTargetWorkMs < adaptAvg s.lastWorkSamples →
        adaptAvg s.lastWorkSamples ≤ confAdaptTargetWorkMs * (9 / 5) →
        (adaptCoreParameters cmax s).concurrency = s.concurrency) ∧
    (adaptAvg s.lastWorkSamples < confAdaptTargetWorkMs →
        (adaptCoreParameters cmax s).concurrency = min cmax (s.concurrency + 1)) ∧
    (confAdaptTargetWorkMs * (9 / 5) < adaptAvg s.lastWorkSamples →
        (adaptCoreParameters cmax s).concurrency =
          max confConcurrencyMin (s.concurrency - 1)) := by
  have hmin : confConcurrencyMin = 1 := rfl
  refine ⟨?_, ?_, ?_⟩
  · intro ha hb
    unfold adaptCoreParameters
    dsimp only
    rw [if_neg (by linarith), if_neg (by linarith)]
    rw [hmin] at h1 ⊢
    omega
  · intro ha
    unfold adaptCoreParameters
    dsimp only
    rw [if_pos ha]
    rw [hmin] at h1 ⊢
    omega
  · intro ha
    unfold adaptCoreParameters
    dsimp only
    have htarget : (0:ℚ) < confAdaptTargetWorkMs := by norm_num [confAdaptTargetWorkMs]
    rw [if_neg (by nlinarith), if_pos ha]
    rw [hmin] at h1 ⊢
    omega

/-- Witness for C6: one retained 15 ms sample puts the average at 15,
inside the dead band `(12, 21.6]`, and the boot-state concurrency 3 is
unchanged by the controller. -/
theorem c6_controller_hysteresis_witness :
    confConcurrencyMin ≤ ({ initState with lastWorkSamples := [Sample.mk 0 15] } : Sys).concurrency ∧
    ({ initState with lastWorkSamples := [Sample.mk 0 15] } : Sys).concurrency ≤ 4 ∧
    confAdaptTargetWorkMs < adaptAvg [Sample.mk 0 15] ∧
    adaptAvg [Sample.mk 0 15] ≤ confAdaptTargetWorkMs * (9 / 5) ∧
    (adaptCoreParameters 4 { initState with lastWorkSamples := [Sample.mk 0 15] }).concurrency = 3 := by
  have havg : adaptAvg [Sample.mk 0 15] = 15 := by
    norm_num [adaptAvg, List.filter]
  have h1 : confConcurrencyMin ≤ ({ initState with lastWorkSamples := [Sample.mk 0 15] } : Sys).concurrency := by
    norm_num [initState, confConcurrencyMin, confConcurrencyInit]
  have h2 : ({ initState with lastWorkSamples := [Sample.mk 0 15] } : Sys).concurrency ≤ 4 := by
    norm_num [initState, confConcurrencyInit]
  have ha : confAdaptTargetWorkMs < adaptAvg [Sample.mk 0 15] := by
    rw [havg]; norm_num [confAdaptTargetWorkMs]
  have hb : adaptAvg [Sample.mk 0 15] ≤ confAdaptTargetWorkMs * (9 / 5) := by
    rw [havg]; norm_num [confAdaptTargetWorkMs]
  exact ⟨h1, h2, ha, hb,
    (c6_controller_hysteresis 4 _ h1 h2).1 ha hb⟩

/-- C1 counterexample: video 7 is enqueued and launched, then — while its
processing is still in flight and `__fsim_done` is still unset — the
discovery pass finds it again; `enqueueNewVideos` re-admits it (it checks
only `__fsim_done` and queue membership, not in-flight work) and the next
activation launches it a second time.  The launch history ends as
`[7, 7]`: the same item is handed to the strategy selector twice. -/
theorem c1_counterexample :
    (drainTaskBatch 4 0 0 (enqueueNewVideos [7]
      (drainTaskBatch 4 0 0 (enqueueNewVideos [7] initState)))).launched = [7, 7] ∧
    (drainTaskBatch 4 0 0 (enqueueNewVideos [7]
      (drainTaskBatch 4 0 0 (enqueueNewVideos [7] initState)))).doneFlags = [] := by
  constructor <;>
    norm_num [drainTaskBatch, drainLoop, enqueueNewVideos, adaptCoreParameters, adaptAvg,
      purgeSamples, readyRateOf, initState, confConcurrencyInit, confBatchDelayInit,
      confSkipStepBase, confAdaptTargetWorkMs, confAdaptWindowMs, confBatchDelayMin,
      confBatchDelayMax, confConcurrencyMin, List.filter, max_def, min_def]

/-- C1 amended: `enqueue` is a no-op for an item that is already pending
or already marked done; otherwise it appends the item and raises
`seenCount` to at least `queue.length + processingCount + doneCount`.  (No
in-flight check exists, so an item whose processing is under way can be
re-admitted; see the counterexample.) -/
theorem c1_amended_enqueue_noop (s : Sys) (v : ℕ) :
    ((v ∈ s.doneFlags ∨ v ∈ s.queue) → (enqueueNewVideos [v] s).queue = s.queue) ∧
    (v ∉ s.doneFlags → v ∉ s.queue →
      (enqueueNewVideos [v] s).queue = s.queue ++ [v] ∧
      (enqueueNewVideos [v] s).seenCount =
        max s.seenCount (s.queue.length + 1 + s.processingCount + s.doneCount)) := by
  constructor
  · intro h
    unfold enqueueNewVideos
    rcases h with hd | hq
    · simp [hd]
    · by_cases hd : v ∈ s.doneFlags
      · simp [hd]
      · simp [hd, hq]
  · intro hd hq
    unfold enqueueNewVideos
    constructor
    · simp [hd, hq]
    · simp [hd, hq]

/-- Witness for C1 amended: with queue `[5]` and done set `[9]`, enqueuing
5 (pending) or 9 (done) changes nothing, and enqueuing the fresh 6 appends
it. -/
theorem c1_amended_enqueue_noop_witness :
    (enqueueNewVideos [5] { initState with queue := [5], doneFlags := [9] }).queue = [5] ∧
    (enqueueNewVideos [9] { initState with queue := [5], doneFlags := [9] }).queue = [5] ∧
    (enqueueNewVideos [6] { initState with queue := [5], doneFlags := [9] }).queue = [5, 6] := by
  refine ⟨?_, ?_, ?_⟩
  · exact (c1_amended_enqueue_noop _ 5).1 (Or.inr (by simp))
  · exact (c1_amended_enqueue_noop _ 9).1 (Or.inl (by simp))
  · exact ((c1_amended_enqueue_noop _ 6).2 (by simp) (by simp)).1

/-- The launch loop of an activation never raises `processingCount` beyond
`concurrency`: the while-condition admits a launch only while
`processingCount < concurrency`. -/
theorem drainLoop_processing_le (doneFlags : List ℕ) (conc : ℤ) :
    ∀ (q : List ℕ) (pc pr : ℕ), (pc : ℤ) ≤ conc →
      ((drainLoop doneFlags conc q pc pr).processingCount : ℤ) ≤ conc := by
  intro q
  induction q with
  | nil =>
    intro pc pr h
    simpa [drainLoop] using h
  | cons v rest ih =>
    intro pc pr h
    unfold drainLoop
    split_ifs with hc hd
    · exact ih pc pr h
    · have : ((pc + 1 : ℕ) : ℤ) ≤ conc := by push_cast; omega
      simpa using ih (pc + 1) (pr + 1) this
    · simpa using h

/-- The final clamp of the controller keeps `concurrency` inside
`[concurrencyMin, cmax]` after every update. -/
theorem adapt_concurrency_bounds (cmax : ℤ) (s : Sys)
    (hcmax : confConcurrencyMin ≤ cmax) :
    confConcurrencyMin ≤ (adaptCoreParameters cmax s).concurrency ∧
    (adaptCoreParameters cmax s).concurrency ≤ cmax := by
  unfold adaptCoreParameters
  dsimp only
  exact ⟨le_max_left _ _, max_le hcmax (min_le_left _ _)⟩

/-- C2 counterexample: from the boot state, enqueue three items and run
one activation that measures 100 ms: all three are launched
(`processingCount = 3`, within the then-current limit 3), and the
controller — reacting to the slow sample — lowers `concurrency` to 2 at
the end of the same activation.  The reachable post-state has
`processingCount = 3 > concurrency = 2`, so `processingCount ≤
concurrency` does not hold at every reachable state. -/
theorem c2_counterexample :
    (drainTaskBatch 4 0 100 (enqueueNewVideos [1, 2, 3] initState)).processingCount = 3 ∧
    (drainTaskBatch 4 0 100 (enqueueNewVideos [1, 2, 3] initState)).concurrency = 2 ∧
    ¬(((drainTaskBatch 4 0 100 (enqueueNewVideos [1, 2, 3] initState)).processingCount : ℤ) ≤
        (drainTaskBatch 4 0 100 (enqueueNewVideos [1, 2, 3] initState)).concurrency) := by
  refine ⟨?_, ?_, ?_⟩ <;>
    norm_num [drainTaskBatch, drainLoop, enqueueNewVideos, adaptCoreParameters, adaptAvg,
      purgeSamples, readyRateOf, initState, confConcurrencyInit, confBatchDelayInit,
      confSkipStepBase, confAdaptTargetWorkMs, confAdaptWindowMs, confBatchDelayMin,
      confBatchDelayMax, confConcurrencyMin, List.filter, max_def, min_def]

/-- C2 amended: the launch loop of a single activation keeps `processingCount ≤
concurrency` whenever that bound held at its start, and every controller
update leaves `concurrency` within `[concurrencyMin, cmax]`.  (The bound
`processingCount ≤ concurrency` is not preserved across the
decrement; see the counterexample.) -/
theorem c2_amended_budget_and_clamp (doneFlags : List ℕ) (conc : ℤ)
    (q : List ℕ) (pc pr : ℕ) (cmax : ℤ) (s : Sys)
    (hpc : (pc : ℤ) ≤ conc) (hcmax : confConcurrencyMin ≤ cmax) :
    ((drainLoop doneFlags conc q pc pr).processingCount : ℤ) ≤ conc ∧
    confConcurrencyMin ≤ (adaptCoreParameters cmax s).concurrency ∧
    (adaptCoreParameters cmax s).concurrency ≤ cmax :=
  ⟨drainLoop_processing_le doneFlags conc q pc pr hpc,
    (adapt_concurrency_bounds cmax s hcmax).1,
    (adapt_concurrency_bounds cmax s hcmax).2⟩

/-- Witness for C2 amended: five pending items, limit 3, empty done set —
the launch loop stops at 3 in-flight, and the controller keeps
`concurrency` within `[1, 4]`. -/
theorem c2_amended_budget_and_clamp_witness :
    ((0 : ℕ) : ℤ) ≤ 3 ∧ confConcurrencyMin ≤ (4 : ℤ) ∧
    ((drainLoop [] 3 [1, 2, 3, 4, 5] 0 0).processingCount : ℤ) ≤ 3 ∧
    confConcurrencyMin ≤ (adaptCoreParameters 4 initState).concurrency ∧
    (adaptCoreParameters 4 initState).concurrency ≤ 4 := by
  have h1 : ((0 : ℕ) : ℤ) ≤ 3 := by norm_num
  have h2 : confConcurrencyMin ≤ (4 : ℤ) := by norm_num [confConcurrencyMin]
  exact ⟨h1, h2, (c2_amended_budget_and_clamp [] 3 [1, 2, 3, 4, 5] 0 0 4 initState h1 h2).1,
    (c2_amended_budget_and_clamp [] 3 [1, 2, 3, 4, 5] 0 0 4 initState h1 h2).2.1,
    (c2_amended_budget_and_clamp [] 3 [1, 2, 3, 4, 5] 0 0 4 initState h1 h2).2.2⟩

/-- C3: evaluation of `processOneHybrid` at the failing input — a ready
video (`readyState` 3 ≥ 2, fresh estimator rate `1/2 > 0.4`) whose
`currentTime` jump throws.  The code increments `readyFailure` (1) but
then proceeds straight to the completion block: the video position is
unchanged (`currentTime` stays 0 in the result), no event — in particular
no `ended` — is dispatched, and the item is marked done.  The incremental
strategy is never entered for this item, although the source comment
(`fallback to skip if instant failed`) and the spec say it falls through
to it. -/
theorem c3_instant_error_no_fallback :
    processOneHybrid 0 0 confSkipStepBase (fun _ => true) 100 0 videoSeekThrows =
      some { video := { videoSeekThrows with fsimDone := true }
             readySuccess := 0, readyFailure := 1, doneCount := 1
             events := [], usedInstant := false
             cleanupCalled := true, toastCalled := true, returned := true } := by
  norm_num [processOneHybrid, hybridReady, preferInstant, readyRateOf, videoSeekThrows,
    confPreferInstantReadyState]

/-- C4 counterexample: a not-ready video with non-finite duration is
routed to the incremental strategy and `processOneHybrid` never exits
while the running flag stays `true` and no step errors — the
unknown-duration branch has no stop condition.  Processing of this item
does not terminate, so it is never marked done. -/
theorem c4_counterexample :
    processDiverges 0 0 confSkipStepBase 0 videoNoDuration := by
  intro fuel
  have hcond : (hybridReady videoNoDuration && preferInstant 0 0 videoNoDuration) = false := by
    norm_num [hybridReady, videoNoDuration, confPreferInstantReadyState]
  unfold processOneHybrid
  rw [hcond]
  simp only [Bool.false_eq_true, if_false]
  rw [incrLoop_stuck_unknown_duration _ _ rfl (fun i => rfl) fuel 0 _]

/-- C4 amended: whenever `processOneHybrid` exits — on the instant path,
or when the incremental loop leaves (terminal reached, running flag
cleared, or a step error) — it finishes by marking the item done,
incrementing `doneCount` and invoking the cleanup and notification
collaborators; and for an item with a known positive duration, fault-free
seeking, a positive step and the running flag held `true`, it does exit.
(For an item with unknown/non-finite duration on the incremental path it
never exits; see the counterexample.) -/
theorem c4_amended_finish_on_exit (rs rf dc : ℕ) (ss : ℚ)
    (run : ℕ → Bool) (fuel : ℕ) (v : Video) :
    (∀ r, processOneHybrid rs rf ss run fuel dc v = some r →
        r.video.fsimDone = true ∧ r.doneCount = dc + 1 ∧
        r.cleanupCalled = true ∧ r.toastCalled = true) ∧
    (∀ d : ℚ, v.duration = some d → 0 < d → 0 < ss →
        (∀ i, v.seekFault i = false) →
        ∃ n : ℕ, (processOneHybrid rs rf ss (fun _ => true) n dc v).isSome = true) := by
  constructor
  · intro r h
    exact processOneHybrid_completion rs rf dc ss run fuel v r h
  · intro d hd hdpos hss hfault
    by_cases hcond : (hybridReady v && preferInstant rs rf v) = true
    · refine ⟨1, ?_⟩
      unfold processOneHybrid
      simp [hcond, hfault]
    · have hcond2 : (hybridReady v && preferInstant rs rf v) = false := by
        revert hcond
        cases hybridReady v && preferInstant rs rf v <;> simp
      obtain ⟨N, hN⟩ := exists_nat_ge ((d - v.currentTime) / stepOf ss)
      have hstep := stepOf_pos ss hss
      have hbound : d - v.currentTime ≤ stepOf ss * N := by
        rw [div_le_iff₀ hstep] at hN
        rw [mul_comm]
        exact hN
      have hloop := incrLoop_finishes (stepOf ss) d v hstep hd hdpos hfault N v.currentTime 0 hbound
      refine ⟨N + 1, ?_⟩
      unfold processOneHybrid
      rw [hcond2]
      simp only [Bool.false_eq_true, if_false, hloop]
      rfl

/-- Witness for C4 amended: the ready 10-second video is processed through
the instant path with one unit of fuel and finishes marked done, counters
and collaborators as asserted; its incremental route also terminates. -/
theorem c4_amended_finish_on_exit_witness :
    processOneHybrid 0 0 confSkipStepBase (fun _ => true) 1 0 videoInstantOk =
      some procInstantOk ∧
    procInstantOk.video.fsimDone = true ∧ procInstantOk.doneCount = 0 + 1 ∧
    procInstantOk.cleanupCalled = true ∧ procInstantOk.toastCalled = true ∧
    videoInstantOk.duration = some 10 ∧ (0 : ℚ) < 10 ∧ (0 : ℚ) < confSkipStepBase ∧
    ∃ n : ℕ, (processOneHybrid 0 0 confSkipStepBase (fun _ => true) n 0 videoInstantOk).isSome
      = true := by
  have heval : processOneHybrid 0 0 confSkipStepBase (fun _ => true) 1 0 videoInstantOk =
      some procInstantOk := by
    norm_num [processOneHybrid, hybridReady, preferInstant, readyRateOf, videoInstantOk,
      procInstantOk, confPreferInstantReadyState]
  have hc := c4_amended_finish_on_exit 0 0 0 confSkipStepBase (fun _ => true) 1 videoInstantOk
  have hfin := hc.1 procInstantOk heval
  exact ⟨heval, hfin.1, hfin.2.1, hfin.2.2.1, hfin.2.2.2, rfl, by norm_num,
    by norm_num [confSkipStepBase],
    hc.2 10 rfl (by norm_num) (by norm_num [confSkipStepBase]) (fun i => rfl)⟩

/-- C9: if the item goes down the incremental route and the stepping loop
observes the running flag `false` at one of its checks (the cooperative
exit `stop()` relies on), `processOneHybrid` still finishes the item: it
is marked done at the position the loop had reached, `doneCount` is
incremented, and the cleanup and notification collaborators are invoked —
with no `ended` event, since the terminal branch was never reached. -/
theorem c9_stop_midloop_still_done (rs rf dc : ℕ) (ss : ℚ) (run : ℕ → Bool)
    (fuel : ℕ) (v : Video) (p : ℚ)
    (hroute : (hybridReady v && preferInstant rs rf v) = false)
    (hloop : incrLoop (stepOf ss) run v fuel 0 v.currentTime = some (p, LoopExit.stopped)) :
    processOneHybrid rs rf ss run fuel dc v =
      some { video := { v with currentTime := p, fsimDone := true }
             readySuccess := rs, readyFailure := rf, doneCount := dc + 1
             events := [], usedInstant := false
             cleanupCalled := true, toastCalled := true, returned := true } := by
  unfold processOneHybrid
  rw [hroute]
  simp only [Bool.false_eq_true, if_false, hloop]
  simp

/-- Witness for C9: the not-ready 100-second video advances to position 1
(step budget 1) and then sees the flag cleared at check 1; it is finished
marked done at position `1 < 100` — short of its duration. -/
theorem c9_stop_midloop_still_done_witness :
    (hybridReady videoNotReady && preferInstant 0 0 videoNotReady) = false ∧
    incrLoop (stepOf 1) runStopAfterOne videoNotReady 2 0 videoNotReady.currentTime =
      some (1, LoopExit.stopped) ∧
    processOneHybrid 0 0 1 runStopAfterOne 2 0 videoNotReady =
      some { video := { videoNotReady with currentTime := 1, fsimDone := true }
             readySuccess := 0, readyFailure := 0, doneCount := 0 + 1
             events := [], usedInstant := false
             cleanupCalled := true, toastCalled := true, returned := true } ∧
    (1 : ℚ) < 100 := by
  have hroute : (hybridReady videoNotReady && preferInstant 0 0 videoNotReady) = false := by
    norm_num [hybridReady, videoNotReady, preferInstant, confPreferInstantReadyState]
  have hstep : stepOf 1 = 1 := by
    norm_num [stepOf, confSkipStepBase, confSkipStepMax, min_def]
  have hloop : incrLoop (stepOf 1) runStopAfterOne videoNotReady 2 0 videoNotReady.currentTime =
      some (1, LoopExit.stopped) := by
    rw [hstep, show (2:ℕ) = 1 + 1 from rfl, incrLoop_succ]
    rw [if_neg (show ¬ (runStopAfterOne 0 = false) by simp [runStopAfterOne]),
      if_neg (show ¬ (videoNotReady.seekFault 0 = true) by simp [videoNotReady])]
    simp only [videoNotReady]
    rw [if_neg (show ¬ (100:ℚ) ≤ 0 by norm_num),
      if_neg (show ¬ ((100:ℚ) - 0 ≤ 1/2) by norm_num)]
    rw [show (1:ℕ) = 0 + 1 from rfl, incrLoop_succ]
    rw [if_pos (show runStopAfterOne (0+1) = false by simp [runStopAfterOne])]
    norm_num [min_def]
  exact ⟨hroute, hloop,
    c9_stop_midloop_still_done 0 0 0 1 runStopAfterOne 2 videoNotReady 1 hroute hloop,
    by norm_num⟩

end Theorems

end FastSim
